import Mathlib

/-!
Verification of the continual-learning task-assignment core of the
`continuum` repository: the segmentation class-incremental scenario
(`src/continuum/scenarios/segmentation.py`) and the
transformation-incremental scenario
(`src/continuum/scenarios/transformation_incremental.py`).

Pure functions of the source are embedded as Lean functions; the mutable
dataset triple of the transformation-incremental scenario is embedded as
explicit state passing.  Python exceptions become `Except String`.
-/

deriving instance DecidableEq for Except

/-! ### Segmentation: membership filter (`_filter_images`) -/

/-- Value of `accumulated_inc` at the start of iteration `task_id` of the
task loop in `_filter_images`: the sum of the increments of all earlier
tasks. -/
def accumulated_inc (increments : List ℕ) (task_id : ℕ) : ℕ :=
  (increments.take task_id).sum

/-- Embeds `labels = class_order[accumulated_inc:accumulated_inc+inc]`
(segmentation.py line 136): the class slice owned by task `task_id`. -/
def task_labels (increments class_order : List ℕ) (task_id : ℕ) : List ℕ :=
  (class_order.drop (accumulated_inc increments task_id)).take (increments.getD task_id 0)

/-- Embeds `old_labels = class_order[:accumulated_inc]`
(segmentation.py line 137): the classes introduced by all earlier tasks. -/
def old_labels (increments class_order : List ℕ) (task_id : ℕ) : List ℕ :=
  class_order.take (accumulated_inc increments task_id)

/-- Embeds `all_labels = labels + old_labels + [0, 255]`
(segmentation.py line 138). -/
def all_labels (increments class_order : List ℕ) (task_id : ℕ) : List ℕ :=
  task_labels increments class_order task_id ++ old_labels increments class_order task_id ++ [0, 255]

/-- Embeds the overlap-mode cell update (segmentation.py lines 141-143):
the cell becomes 1 iff `any(c in labels for c in classes)`. -/
def overlap_cell (classes labels : List ℕ) : ℕ :=
  if classes.any (fun c => labels.contains c) then 1 else 0

/-- Embeds the disjoint-mode cell update (segmentation.py lines 144-146):
the cell becomes 1 iff `any(c in labels for c in classes) and
all(c in all_labels for c in classes)`. -/
def disjoint_cell (classes labels alls : List ℕ) : ℕ :=
  if classes.any (fun c => labels.contains c) && classes.all (fun c => alls.contains c) then 1 else 0

/-- One cell of the membership matrix built by `_filter_images`
(segmentation.py lines 135-148), for a sample whose present classes are
`classes` and for task `task_id`.  The unknown-mode branch embeds
`raise ValueError(f"Unknown mode={mode}.")`. -/
def filter_cell (classes increments class_order : List ℕ) (mode : String) (task_id : ℕ) :
    Except String ℕ :=
  if mode = "overlap" then
    Except.ok (overlap_cell classes (task_labels increments class_order task_id))
  else if mode = "disjoint" then
    Except.ok (disjoint_cell classes (task_labels increments class_order task_id)
      (all_labels increments class_order task_id))
  else
    Except.error s!"Unknown mode={mode}."

/-- The row of the membership matrix belonging to one sample: one cell per
task (the task loop of `_filter_images`, segmentation.py lines 135-150). -/
def filter_row (classes increments class_order : List ℕ) (mode : String) :
    Except String (List ℕ) :=
  (List.range increments.length).mapM (filter_cell classes increments class_order mode)

/-- Embeds `_filter_images` (segmentation.py lines 121-152) after the
per-sample class sets have been decoded: `indexes_to_classes` is the list,
one entry per sample, of the classes present in that sample's label map.
The result is the matrix `t`, one row per sample, one column per task;
a cell is 1 where the python code assigns `t[index, task_id] = 1` and 0
otherwise.  The error fires exactly when the python `raise` is reached:
an unknown mode together with at least one sample and at least one task. -/
def filter_images (indexes_to_classes : List (List ℕ)) (increments class_order : List ℕ)
    (mode : String) : Except String (List (List ℕ)) :=
  indexes_to_classes.mapM (fun classes => filter_row classes increments class_order mode)

/-- Accessor for one cell `t[s, t]` of the membership matrix. -/
def membership_cell (m : List (List ℕ)) (s t : ℕ) : ℕ :=
  (m.getD s []).getD t 0

/-! ### Segmentation: class order chosen by `_setup` -/

/-- Embeds the class-order assignment of `SegmentationClassIncremental._setup`
(segmentation.py line 105): `self.class_order = list(range(1, self._nb_classes + 1))`.
The `class_order` argument accepted by `__init__` (segmentation.py line 38)
is forwarded to the base class but `_setup` reassigns `self.class_order`
unconditionally, so the supplied order never reaches the filtering or
remapping code; it is therefore an ignored parameter here, exactly as in
the source. -/
def setup_class_order (nb_classes : ℕ) (_class_order_param : Option (List ℕ)) : List ℕ :=
  List.range' 1 nb_classes

/-! ### Segmentation: label remapping (`__getitem__`, lines 74-86) -/

/-- Embeds the python dict `inverted_order` as an insertion-ordered
association list (segmentation.py lines 77-80): the comprehension
`{label: self.class_order.index(label) for label in labels}` followed, when
the dataset is not in train mode, by the assignments `inverted_order[0] =
0 if self.test_background else 255` and `inverted_order[255] = 255`. -/
def inverted_order (labels class_order : List ℕ) (train test_background : Bool) :
    List (ℕ × ℕ) :=
  let base := labels.map (fun label => (label, List.indexOf label class_order))
  if train then base
  else base ++ [(0, if test_background then 0 else 255), (255, 255)]

/-- Python dict lookup with default, `d.get(v, default)`, on an
insertion-ordered association list where a later insertion of the same key
overwrites an earlier one (hence the search from the right). -/
def dict_get (d : List (ℕ × ℕ)) (v default : ℕ) : ℕ :=
  match d.reverse.find? (fun p => p.1 == v) with
  | some p => p.2
  | none => default

/-- Embeds the label remap function `lambda v: inverted_order.get(v, 0)`
built inside `SegmentationClassIncremental.__getitem__`
(segmentation.py lines 82-86). -/
def label_trsf (labels class_order : List ℕ) (train test_background : Bool) (v : ℕ) : ℕ :=
  dict_get (inverted_order labels class_order train test_background) v 0

/-! ### Theorems: C3, C4, C5 -/

/-- C3 counterexample: with class order `[1,2]`, increments `[1,1]` and a
single sample whose class set is `{1,2}`, disjoint mode does NOT produce
an all-zero membership row: the computed matrix is `[[0, 1]]`, not
`[[0, 0]]`.  Task 1's cumulative label set `[2] ++ [1] ++ [0, 255]`
contains both classes, so the sample is assigned to task 1. -/
theorem disjoint_fixture_row_not_all_zero :
    filter_images [[1, 2]] [1, 1] [1, 2] "disjoint" ≠ Except.ok [[0, 0]] := by
  decide

/-- C3 (amended): for the fixture with class set `{1,2}`, class 1
introduced in task 0 and class 2 in task 1, disjoint mode excludes the
sample from task 0 but assigns it to task 1: the membership row is
`[0, 1]`. -/
theorem disjoint_fixture_membership_row :
    filter_images [[1, 2]] [1, 1] [1, 2] "disjoint" = Except.ok [[0, 1]] ∧
      membership_cell [[0, 1]] 0 0 = 0 ∧ membership_cell [[0, 1]] 0 1 = 1 := by
  refine ⟨by decide, rfl, rfl⟩

/-- C4 counterexample: supplying the explicit class order `[2, 1]` with
`nb_classes = 2` does not make the scenario use it: `_setup`
unconditionally reassigns the dense range, so the order actually used is
`[1, 2]`, which differs from the supplied permutation. -/
theorem class_order_param_ignored_cex :
    setup_class_order 2 (some [2, 1]) = [1, 2] ∧ setup_class_order 2 (some [2, 1]) ≠ [2, 1] := by
  decide

/-- C4 (amended): whether or not an explicit `class_order` is supplied, the
class order used by membership filtering and label remapping is the dense
range `1..nb_classes` inclusive; the supplied permutation has no effect. -/
theorem class_order_always_dense_range (nb_classes : ℕ) (p : Option (List ℕ)) :
    setup_class_order nb_classes p = List.range' 1 nb_classes ∧
      setup_class_order nb_classes p = setup_class_order nb_classes none :=
  ⟨rfl, rfl⟩

/-! ### Infrastructure for the membership-matrix theorems -/

/-- A `mapM` over `Except` whose body never fails is the corresponding
`map`. -/
theorem list_mapM_ok {α β : Type} (f : α → Except String β) (g : α → β)
    (h : ∀ a, f a = Except.ok (g a)) (l : List α) : l.mapM f = Except.ok (l.map g) := by
  induction l with
  | nil => rfl
  | cons a l ih => rw [List.mapM_cons, h a, ih]; rfl

/-- In overlap mode a cell never raises and is the overlap condition. -/
theorem filter_cell_overlap (classes increments class_order : List ℕ) (task_id : ℕ) :
    filter_cell classes increments class_order "overlap" task_id =
      Except.ok (overlap_cell classes (task_labels increments class_order task_id)) := rfl

/-- In disjoint mode a cell never raises and is the disjoint condition. -/
theorem filter_cell_disjoint (classes increments class_order : List ℕ) (task_id : ℕ) :
    filter_cell classes increments class_order "disjoint" task_id =
      Except.ok (disjoint_cell classes (task_labels increments class_order task_id)
        (all_labels increments class_order task_id)) := rfl

/-- Closed form of the whole membership matrix in overlap mode. -/
theorem filter_images_overlap (cls : List (List ℕ)) (increments class_order : List ℕ) :
    filter_images cls increments class_order "overlap" =
      Except.ok (cls.map (fun classes => (List.range increments.length).map
        (fun tid => overlap_cell classes (task_labels increments class_order tid)))) :=
  list_mapM_ok _ _
    (fun classes => list_mapM_ok _ _ (filter_cell_overlap classes increments class_order) _) _

/-- Closed form of the whole membership matrix in disjoint mode. -/
theorem filter_images_disjoint (cls : List (List ℕ)) (increments class_order : List ℕ) :
    filter_images cls increments class_order "disjoint" =
      Except.ok (cls.map (fun classes => (List.range increments.length).map
        (fun tid => disjoint_cell classes (task_labels increments class_order tid)
          (all_labels increments class_order tid)))) :=
  list_mapM_ok _ _
    (fun classes => list_mapM_ok _ _ (filter_cell_disjoint classes increments class_order) _) _

/-- Reading an index past the end of a list yields the default. -/
theorem getD_oob {α : Type} (l : List α) (t : ℕ) (d : α) (h : l.length ≤ t) :
    l.getD t d = d := by
  simp [List.getD_eq_getElem?_getD, List.getElem?_eq_none h]

/-- Evaluating one in-range cell of a matrix of the closed form produced by
`filter_images`. -/
theorem membership_cell_map_map (cls : List (List ℕ)) (n : ℕ) (g : List ℕ → ℕ → ℕ)
    (s t : ℕ) (classes : List ℕ) (hs : cls.get? s = some classes) (ht : t < n) :
    membership_cell (cls.map (fun c => (List.range n).map (g c))) s t = g classes t := by
  rw [List.get?_eq_getElem?] at hs
  simp [membership_cell, List.getD_eq_getElem?_getD, hs, List.getElem?_range ht]

/-- An out-of-range cell of a matrix of the closed form produced by
`filter_images` is 0. -/
theorem membership_cell_oob (cls : List (List ℕ)) (n : ℕ) (g : List ℕ → ℕ → ℕ) (s t : ℕ)
    (h : cls.length ≤ s ∨ n ≤ t) :
    membership_cell (cls.map (fun c => (List.range n).map (g c))) s t = 0 := by
  rcases h with h | h
  · have hnone : (cls.map (fun c => (List.range n).map (g c)))[s]? = none :=
      List.getElem?_eq_none (by simpa using h)
    simp [membership_cell, List.getD_eq_getElem?_getD, hnone]
  · cases hq : (cls.map (fun c => (List.range n).map (g c)))[s]? with
    | none => simp [membership_cell, List.getD_eq_getElem?_getD, hq]
    | some row =>
      have hrow : row ∈ cls.map (fun c => (List.range n).map (g c)) := List.getElem?_mem hq
      have hl : row.length = n := by
        rcases List.mem_map.mp hrow with ⟨c, _, rfl⟩
        simp
      simp [membership_cell, List.getD_eq_getElem?_getD, hq,
        List.getElem?_eq_none (le_of_eq_of_le hl h)]

/-- Membership of a `ℕ` in a list agrees with the boolean `contains` used
to embed python's `in`. -/
theorem contains_iff_mem (l : List ℕ) (c : ℕ) : l.contains c = true ↔ c ∈ l := by
  simp [List.contains_iff_exists_mem_beq]

/-- The overlap condition, read as a proposition. -/
theorem overlap_cell_eq_one (classes labels : List ℕ) :
    overlap_cell classes labels = 1 ↔ ∃ c, c ∈ classes ∧ c ∈ labels := by
  unfold overlap_cell
  rcases hb : classes.any (fun c => labels.contains c) with _ | _
  · rw [if_neg (by simp [hb])]
    constructor
    · omega
    · rintro ⟨c, hc, hcl⟩
      have : classes.any (fun c => labels.contains c) = true :=
        List.any_eq_true.mpr ⟨c, hc, (contains_iff_mem labels c).mpr hcl⟩
      rw [hb] at this
      exact absurd this (by simp)
  · rw [if_pos (by simp [hb])]
    rcases List.any_eq_true.mp hb with ⟨c, hc, hcl⟩
    exact iff_of_true rfl ⟨c, hc, (contains_iff_mem labels c).mp hcl⟩

/-- The disjoint condition, read as a proposition. -/
theorem disjoint_cell_eq_one (classes labels alls : List ℕ) :
    disjoint_cell classes labels alls = 1 ↔
      (∃ c, c ∈ classes ∧ c ∈ labels) ∧ ∀ c, c ∈ classes → c ∈ alls := by
  unfold disjoint_cell
  rcases hb : classes.any (fun c => labels.contains c) && classes.all (fun c => alls.contains c)
    with _ | _
  · rw [if_neg (by simp [hb])]
    constructor
    · omega
    · rintro ⟨⟨c, hc, hcl⟩, hall⟩
      have h1 : classes.any (fun c => labels.contains c) = true :=
        List.any_eq_true.mpr ⟨c, hc, (contains_iff_mem labels c).mpr hcl⟩
      have h2 : classes.all (fun c => alls.contains c) = true :=
        List.all_eq_true.mpr (fun x hx => (contains_iff_mem alls x).mpr (hall x hx))
      rw [h1, h2] at hb
      exact absurd hb (by simp)
  · rw [if_pos (by simp [hb])]
    rcases Bool.and_eq_true_iff.mp hb with ⟨h1, h2⟩
    rcases List.any_eq_true.mp h1 with ⟨c, hc, hcl⟩
    refine iff_of_true rfl ⟨⟨c, hc, (contains_iff_mem labels c).mp hcl⟩, fun x hx => ?_⟩
    exact (contains_iff_mem alls x).mp (List.all_eq_true.mp h2 x hx)

/-- C1: in overlap mode, for every dataset (given by its decoded per-sample
class sets), increment list and class order, and for every sample `s` and
task `t`, the membership cell `(s, t)` is 1 iff the sample's class set
intersects task `t`'s class slice of the class order. -/
theorem overlap_mode_membership (cls : List (List ℕ)) (increments class_order : List ℕ)
    (m : List (List ℕ))
    (hm : filter_images cls increments class_order "overlap" = Except.ok m)
    (s t : ℕ) (classes : List ℕ) (hs : cls.get? s = some classes)
    (ht : t < increments.length) :
    membership_cell m s t = 1 ↔
      ∃ c, c ∈ classes ∧ c ∈ task_labels increments class_order t := by
  rw [filter_images_overlap] at hm
  injection hm with hm
  subst hm
  rw [membership_cell_map_map cls increments.length
    (fun c tid => overlap_cell c (task_labels increments class_order tid)) s t classes hs ht]
  exact overlap_cell_eq_one classes (task_labels increments class_order t)

/-- C1 witness: a one-sample, one-task instantiation. -/
theorem overlap_mode_membership_witness :
    membership_cell [[1]] 0 0 = 1 ↔ ∃ c, c ∈ ([1] : List ℕ) ∧ c ∈ task_labels [1] [1] 0 :=
  overlap_mode_membership [[1]] [1] [1] [[1]] rfl 0 0 [1] rfl (by decide)

/-- C2: in disjoint mode, for every dataset, increment list and class order,
and for every sample `s` and task `t`, the membership cell `(s, t)` is 1 iff
the sample's class set intersects task `t`'s class slice AND every class of
the sample lies in the union of task `t`'s slice, the classes introduced by
earlier tasks, and the pseudo-classes 0 and 255. -/
theorem disjoint_mode_membership (cls : List (List ℕ)) (increments class_order : List ℕ)
    (m : List (List ℕ))
    (hm : filter_images cls increments class_order "disjoint" = Except.ok m)
    (s t : ℕ) (classes : List ℕ) (hs : cls.get? s = some classes)
    (ht : t < increments.length) :
    membership_cell m s t = 1 ↔
      ((∃ c, c ∈ classes ∧ c ∈ task_labels increments class_order t) ∧
        ∀ c, c ∈ classes → c ∈ task_labels increments class_order t ∨
          c ∈ old_labels increments class_order t ∨ c = 0 ∨ c = 255) := by
  rw [filter_images_disjoint] at hm
  injection hm with hm
  subst hm
  rw [membership_cell_map_map cls increments.length
    (fun c tid => disjoint_cell c (task_labels increments class_order tid)
      (all_labels increments class_order tid)) s t classes hs ht]
  rw [disjoint_cell_eq_one]
  simp only [all_labels, List.mem_append, List.mem_cons, List.not_mem_nil, or_false, or_assoc]

/-- C2 witness: a one-sample, one-task instantiation. -/
theorem disjoint_mode_membership_witness :
    membership_cell [[1]] 0 0 = 1 ↔
      ((∃ c, c ∈ ([1] : List ℕ) ∧ c ∈ task_labels [1] [1] 0) ∧
        ∀ c, c ∈ ([1] : List ℕ) → c ∈ task_labels [1] [1] 0 ∨
          c ∈ old_labels [1] [1] 0 ∨ c = 0 ∨ c = 255) :=
  disjoint_mode_membership [[1]] [1] [1] [[1]] rfl 0 0 [1] rfl (by decide)

/-- C9: on the same dataset, increment list and class order, the disjoint
membership matrix is cell-wise dominated by the overlap one: every cell
that is 1 under `"disjoint"` is 1 under `"overlap"`. -/
theorem disjoint_implies_overlap (cls : List (List ℕ)) (increments class_order : List ℕ)
    (md mo : List (List ℕ))
    (hd : filter_images cls increments class_order "disjoint" = Except.ok md)
    (ho : filter_images cls increments class_order "overlap" = Except.ok mo)
    (s t : ℕ) (h1 : membership_cell md s t = 1) : membership_cell mo s t = 1 := by
  rw [filter_images_disjoint] at hd
  injection hd with hd
  subst hd
  rw [filter_images_overlap] at ho
  injection ho with ho
  subst ho
  by_cases hs : s < cls.length
  · by_cases ht : t < increments.length
    · have hget : cls.get? s = some (cls.get ⟨s, hs⟩) := List.get?_eq_get hs
      rw [membership_cell_map_map cls increments.length
        (fun c tid => disjoint_cell c (task_labels increments class_order tid)
          (all_labels increments class_order tid)) s t _ hget ht] at h1
      rw [membership_cell_map_map cls increments.length
        (fun c tid => overlap_cell c (task_labels increments class_order tid)) s t _ hget ht]
      rcases (disjoint_cell_eq_one _ _ _).mp h1 with ⟨hint, _⟩
      exact (overlap_cell_eq_one _ _).mpr hint
    · rw [membership_cell_oob cls increments.length _ s t (Or.inr (le_of_not_lt ht))] at h1
      omega
  · rw [membership_cell_oob cls increments.length _ s t (Or.inl (le_of_not_lt hs))] at h1
    omega

/-- C9 witness: a concrete instantiation on a fixture where the disjoint
cell is 1. -/
theorem disjoint_implies_overlap_witness : membership_cell [[1]] 0 0 = 1 :=
  disjoint_implies_overlap [[1]] [1] [1] [[1]] [[1]] rfl rfl 0 0 (by decide)

/-- C5: in test mode (dataset not in train mode), the remap function sends
raw identifier 0 to 0 when `test_background` is true and to 255 when it is
false, and sends raw identifier 255 to 255 in both cases — for every task's
label list and every class order. -/
theorem test_mode_background_void (labels class_order : List ℕ) (test_background : Bool) :
    label_trsf labels class_order false test_background 0 =
        (if test_background then 0 else 255) ∧
      label_trsf labels class_order false test_background 255 = 255 := by
  constructor <;>
    simp [label_trsf, dict_get, inverted_order, List.reverse_append, List.find?]

/-! ### Transformation-incremental scenario
(`src/continuum/scenarios/transformation_incremental.py`) -/

/-- State of a `TransformationIncremental` scenario: the dataset triple
`self.dataset = (x, y, t)` (samples, labels, per-sample task-index array),
the per-task transform chains `self.inc_trsf`, the shared base chain
`self.trsf.transforms`, and `len(self)`, the task count `_nb_tasks`
(equal, after construction, to `len(incremental_transformations)`). -/
structure TransformationIncremental (α β : Type) where
  xs : List α
  ys : List ℕ
  ts : List Int
  inc_trsf : List (List β)
  trsf : List β
  nb_tasks : ℕ

/-- The bundle handed to the `TaskSet` constructor by `__getitem__`:
selected samples, labels, task ids, and the composed transform chain. -/
structure TaskSetBundle (α β : Type) where
  xs : List α
  ys : List ℕ
  ts : List Int
  trsf : List β

/-- Embeds `TransformationIncremental.__init__`
(transformation_incremental.py lines 25-42): rejects a missing transform
list and a task count different from the number of transform chains. -/
def make_transformation_incremental {α β : Type} (xs : List α) (ys : List ℕ) (ts : List Int)
    (nb_tasks : ℕ) (incremental_transformations : Option (List (List β)))
    (base_transformations : List β) :
    Except String (TransformationIncremental α β) :=
  match incremental_transformations with
  | none => Except.error "For this scenario a list transformation should be set"
  | some inc_trsf =>
    if nb_tasks ≠ inc_trsf.length then
      Except.error "The number of tasks is not equal to the number of transformation"
    else
      Except.ok ⟨xs, ys, ts, inc_trsf, base_transformations, nb_tasks⟩

/-- Embeds the negative-index loop of `__getitem__`
(transformation_incremental.py lines 66-68):
`while task_index < 0: task_index += len(self)`.  The extra `0 < nb_tasks`
conjunct makes the function total; when `nb_tasks = 0` the python loop
never terminates, so no claim concerns that case. -/
def normalize_index (nb_tasks : ℕ) (task_index : Int) : Int :=
  if _h : task_index < 0 ∧ 0 < nb_tasks then normalize_index nb_tasks (task_index + nb_tasks)
  else task_index
termination_by (-task_index).toNat
decreasing_by
  simp_wf
  omega

/-- Embeds `TransformationIncremental.update_task_indexes`
(transformation_incremental.py lines 51-53):
`new_t = np.ones(len(self.dataset[1])) * task_index` followed by
`self.dataset = (self.dataset[0], self.dataset[1], new_t)`. -/
def update_task_indexes {α β : Type} (st : TransformationIncremental α β) (task_index : Int) :
    TransformationIncremental α β :=
  { st with ts := List.replicate st.ys.length task_index }

/-- Embeds `TransformationIncremental.get_task_transformation`
(transformation_incremental.py lines 48-49):
`transforms.Compose(self.inc_trsf[task_index] + self.trsf.transforms)`.
The out-of-range python `IndexError` becomes `none`. -/
def get_task_transformation {α β : Type} (st : TransformationIncremental α β)
    (task_index : ℕ) : Option (List β) :=
  (st.inc_trsf.get? task_index).map (fun chain => chain ++ st.trsf)

/-- Modelled from the spec: `_select_data_by_task` lives in the external
base-scenario machinery (spec section 6, Data Selector), not under `src/`.
Per the spec it selects, without side effects, the samples whose entry in
the task-index array matches the requested task. -/
def select_data_by_task {α β : Type} (st : TransformationIncremental α β) (task_index : Int) :
    List α × List ℕ × List Int :=
  let triples := (st.xs.zip (st.ys.zip st.ts)).filter (fun p => p.2.2 == task_index)
  (triples.map (fun p => p.1), triples.map (fun p => p.2.1), triples.map (fun p => p.2.2))

/-- Embeds `TransformationIncremental.__getitem__` for an integer index
(transformation_incremental.py lines 55-74): normalizes a negative index by
the wrap loop, overwrites the task-index array (`update_task_indexes`),
selects the data, composes the task transform, and returns the new state
together with the produced bundle (or the `IndexError` raised by the
transform lookup, the state mutation having already happened). -/
def getitem {α β : Type} (st : TransformationIncremental α β) (task_index : Int) :
    TransformationIncremental α β × Except String (TaskSetBundle α β) :=
  let idx := normalize_index st.nb_tasks task_index
  let st2 := update_task_indexes st idx
  let train := select_data_by_task st2 idx
  (st2,
    match get_task_transformation st2 idx.toNat with
    | some chain => Except.ok ⟨train.1, train.2.1, train.2.2, chain⟩
    | none => Except.error "IndexError: list index out of range")

/-- The state returned by `__getitem__` always carries the rewritten
task-index array, whether or not the transform lookup succeeded. -/
theorem getitem_ts {α β : Type} (st : TransformationIncremental α β) (task_index : Int) :
    (getitem st task_index).1.ts =
      List.replicate st.ys.length (normalize_index st.nb_tasks task_index) := rfl

/-- When the transform lookup fails, `__getitem__` surfaces the
out-of-range error. -/
theorem getitem_snd_none {α β : Type} (st : TransformationIncremental α β) (task_index : Int)
    (h : get_task_transformation (update_task_indexes st (normalize_index st.nb_tasks task_index))
        (normalize_index st.nb_tasks task_index).toNat = none) :
    (getitem st task_index).2 = Except.error "IndexError: list index out of range" := by
  simp only [getitem]
  rw [h]

/-- A non-negative index is left unchanged by the wrap loop. -/
theorem normalize_index_nonneg (nb_tasks : ℕ) (task_index : Int) (h : 0 ≤ task_index) :
    normalize_index nb_tasks task_index = task_index := by
  rw [normalize_index, dif_neg]
  omega

/-- The wrap loop computes the euclidean remainder of a negative index:
fuel-indexed induction on the magnitude of the index. -/
theorem normalize_index_emod_aux (nb_tasks : ℕ) (hn : 0 < nb_tasks) :
    ∀ (k : ℕ) (t : Int), (-t).toNat ≤ k → t < 0 →
      normalize_index nb_tasks t = t % nb_tasks := by
  intro k
  induction k with
  | zero => intro t h ht; omega
  | succ k ih =>
    intro t h ht
    rw [normalize_index, dif_pos ⟨ht, hn⟩]
    by_cases h2 : t + nb_tasks < 0
    · rw [ih (t + nb_tasks) (by omega) h2, Int.add_emod_self]
    · rw [normalize_index_nonneg nb_tasks _ (by omega), ← Int.add_emod_self,
        Int.emod_eq_of_lt (by omega) (by omega)]

/-- The wrap loop equals the euclidean remainder on every negative index. -/
theorem normalize_index_emod (nb_tasks : ℕ) (t : Int) (hn : 0 < nb_tasks) (ht : t < 0) :
    normalize_index nb_tasks t = t % nb_tasks :=
  normalize_index_emod_aux nb_tasks hn (-t).toNat t le_rfl ht

/-- C7: for every valid integer task index `t`, after `__getitem__ t` the
task-index array has one entry per sample (its length is the sample count)
and every entry equals `t`; the array is rebuilt from scratch on the
access, so it reflects only this most recent task. -/
theorem task_indexes_rewritten {α β : Type} (st : TransformationIncremental α β) (t : Int)
    (h0 : 0 ≤ t) (_hlt : t < (st.nb_tasks : Int)) :
    (getitem st t).1.ts.length = st.ys.length ∧ ∀ e ∈ (getitem st t).1.ts, e = t := by
  have hidx : normalize_index st.nb_tasks t = t := normalize_index_nonneg st.nb_tasks t h0
  have hts : (getitem st t).1.ts = List.replicate st.ys.length t := by
    rw [getitem_ts, hidx]
  rw [hts]
  exact ⟨List.length_replicate _ _, fun e he => List.eq_of_mem_replicate he⟩

/-- C7 witness: a two-task scenario accessed at task 1. -/
theorem task_indexes_rewritten_witness :
    (getitem (⟨[10], [5], [9], [[1], [2]], [0], 2⟩ : TransformationIncremental ℕ ℕ) 1).1.ts.length
        = ([5] : List ℕ).length ∧
      ∀ e ∈ (getitem (⟨[10], [5], [9], [[1], [2]], [0], 2⟩ : TransformationIncremental ℕ ℕ) 1).1.ts,
        e = 1 :=
  task_indexes_rewritten (⟨[10], [5], [9], [[1], [2]], [0], 2⟩ : TransformationIncremental ℕ ℕ) 1
    (by decide) (by decide)

/-- C8: `__getitem__` resolves a negative index by repeatedly adding the
task count until the result is non-negative, which equals the index modulo
the task count; the resolved task is what the rewritten task-index array
records.  In particular with 4 tasks, `-1` and `-5` both resolve to 3. -/
theorem negative_index_wrap {α β : Type} (st : TransformationIncremental α β) (t : Int)
    (hn : 0 < st.nb_tasks) (ht : t < 0) :
    normalize_index st.nb_tasks t = t % st.nb_tasks ∧
      ∀ e ∈ (getitem st t).1.ts, e = t % st.nb_tasks := by
  have hidx := normalize_index_emod st.nb_tasks t hn ht
  refine ⟨hidx, fun e he => ?_⟩
  have hts : (getitem st t).1.ts = List.replicate st.ys.length (t % st.nb_tasks) := by
    rw [getitem_ts, hidx]
  rw [hts] at he
  exact List.eq_of_mem_replicate he

/-- C8 witness: 4 tasks, index -5; the wrap resolves it to 3 = -5 % 4. -/
theorem negative_index_wrap_witness :
    normalize_index
        (⟨[10], [5], [9], [[1], [2], [3], [4]], [0], 4⟩ : TransformationIncremental ℕ ℕ).nb_tasks
        (-5) = -5 % 4 ∧
      ∀ e ∈ (getitem (⟨[10], [5], [9], [[1], [2], [3], [4]], [0], 4⟩ :
          TransformationIncremental ℕ ℕ) (-5)).1.ts, e = -5 % 4 :=
  negative_index_wrap (⟨[10], [5], [9], [[1], [2], [3], [4]], [0], 4⟩ :
    TransformationIncremental ℕ ℕ) (-5) (by decide) (by decide)

/-- C10: `__getitem__` has no upper-bound check: for every integer index at
least the task count (with the constructor invariant that the task count
equals the number of transform chains), the shared task-index array is
still overwritten to that invalid index, and the access then fails with the
out-of-range error of the transform lookup — the scenario state is not
rolled back. -/
theorem out_of_range_access_mutates {α β : Type} (st : TransformationIncremental α β) (t : Int)
    (hlen : st.nb_tasks = st.inc_trsf.length) (hge : (st.nb_tasks : Int) ≤ t) :
    (getitem st t).1.ts = List.replicate st.ys.length t ∧
      (getitem st t).2 = Except.error "IndexError: list index out of range" := by
  have hidx : normalize_index st.nb_tasks t = t :=
    normalize_index_nonneg st.nb_tasks t (by omega)
  have hnone : get_task_transformation
      (update_task_indexes st (normalize_index st.nb_tasks t))
      (normalize_index st.nb_tasks t).toNat = none := by
    rw [hidx]
    unfold get_task_transformation update_task_indexes
    rw [List.get?_eq_none.mpr (by simp; omega)]
    rfl
  constructor
  · rw [getitem_ts, hidx]
  · exact getitem_snd_none st t hnone

/-! ### Remap positions (C6) -/

/-- Searching an association list built by the dict comprehension
`{label: class_order.index(label) for label in labels}` for a key that is
present finds that key with its class-order position. -/
theorem find_map_key (class_order : List ℕ) :
    ∀ (L : List ℕ) (c : ℕ), c ∈ L →
      (L.map (fun label => (label, List.indexOf label class_order))).find?
          (fun p => p.1 == c) = some (c, List.indexOf c class_order) := by
  intro L
  induction L with
  | nil => intro c hc; cases hc
  | cons a L ih =>
    intro c hc
    by_cases hac : a = c
    · subst hac
      rw [List.map_cons, List.find?_cons_of_pos _ (by simp)]
    · rw [List.map_cons, List.find?_cons_of_neg _ (by simp [hac])]
      rcases List.mem_cons.mp hc with h | h
      · exact absurd h.symm hac
      · exact ih c h

/-- Searching the same association list for an absent key fails. -/
theorem find_map_key_none (class_order : List ℕ) (L : List ℕ) (v : ℕ) (hv : v ∉ L) :
    (L.map (fun label => (label, List.indexOf label class_order))).find?
        (fun p => p.1 == v) = none := by
  apply List.find?_eq_none.mpr
  intro x hx
  rcases List.mem_map.mp hx with ⟨l, hl, rfl⟩
  simp only [beq_iff_eq]
  rintro rfl
  exact hv hl

/-- In train mode, a class of the queried task's labels is remapped to its
0-based position in the global class order. -/
theorem label_trsf_train_mem (labels class_order : List ℕ) (tb : Bool) (c : ℕ)
    (hc : c ∈ labels) :
    label_trsf labels class_order true tb c = List.indexOf c class_order := by
  unfold label_trsf dict_get
  rw [show inverted_order labels class_order true tb =
      labels.map (fun label => (label, List.indexOf label class_order)) from rfl,
    ← List.map_reverse, find_map_key class_order labels.reverse c (List.mem_reverse.mpr hc)]

/-- In test mode, a class of the queried task's labels other than the
pseudo-classes 0 and 255 is also remapped to its position. -/
theorem label_trsf_test_mem (labels class_order : List ℕ) (tb : Bool) (c : ℕ)
    (hc : c ∈ labels) (h0 : c ≠ 0) (h255 : c ≠ 255) :
    label_trsf labels class_order false tb c = List.indexOf c class_order := by
  unfold label_trsf dict_get
  rw [show inverted_order labels class_order false tb =
      labels.map (fun label => (label, List.indexOf label class_order)) ++
        [(0, if tb then 0 else 255), (255, 255)] from rfl,
    List.reverse_append,
    show ([(0, if tb then (0:ℕ) else 255), (255, 255)] : List (ℕ × ℕ)).reverse =
      [(255, 255), (0, if tb then 0 else 255)] from rfl]
  rw [List.cons_append, List.cons_append, List.nil_append]
  rw [List.find?_cons_of_neg _ (by simp only [beq_iff_eq]; exact fun h => h255 h.symm),
    List.find?_cons_of_neg _ (by simp only [beq_iff_eq]; exact fun h => h0 h.symm),
    ← List.map_reverse, find_map_key class_order labels.reverse c (List.mem_reverse.mpr hc)]

/-- In train mode, an identifier outside the queried task's labels is
absent from the dict and falls back to the default 0. -/
theorem label_trsf_train_default (labels class_order : List ℕ) (tb : Bool) (v : ℕ)
    (hv : v ∉ labels) : label_trsf labels class_order true tb v = 0 := by
  unfold label_trsf dict_get
  rw [show inverted_order labels class_order true tb =
      labels.map (fun label => (label, List.indexOf label class_order)) from rfl,
    ← List.map_reverse,
    find_map_key_none class_order labels.reverse v (fun h => hv (List.mem_reverse.mp h))]

set_option maxRecDepth 8192 in
/-- C6 counterexample: with 255 classes in a single task (so that the task's
slice contains the class identifier 255), in test mode the remap sends the
in-slice class 255 to 255 and not to its 0-based position 254 in the class
order — the claim's first clause fails for the void identifier. -/
theorem remap_void_position_cex :
    (255 : ℕ) ∈ task_labels [255] (List.range' 1 255) 0 ∧
      label_trsf (task_labels [255] (List.range' 1 255) 0) (List.range' 1 255)
          false true 255 = 255 ∧
      List.indexOf 255 (List.range' 1 255) = 254 ∧ (255 : ℕ) ≠ 254 := by
  refine ⟨by decide, by decide, by decide, by decide⟩

/-- C6 (amended): for every class `c` of the queried task's labels, the
remap returns `c`'s 0-based position in the global class order — in train
mode unconditionally, and in test mode provided `c` is neither the
background 0 nor the void 255; in train mode every raw identifier outside
the queried task's labels (absent from the mapping) is sent to 0. -/
theorem remap_task_positions (labels class_order : List ℕ) (tb : Bool) (c v : ℕ)
    (hc : c ∈ labels) (hv : v ∉ labels) :
    label_trsf labels class_order true tb c = List.indexOf c class_order ∧
      (c ≠ 0 → c ≠ 255 →
        label_trsf labels class_order false tb c = List.indexOf c class_order) ∧
      label_trsf labels class_order true tb v = 0 :=
  ⟨label_trsf_train_mem labels class_order tb c hc,
    fun h0 h255 => label_trsf_test_mem labels class_order tb c hc h0 h255,
    label_trsf_train_default labels class_order tb v hv⟩

/-- C6 witness: a concrete task with labels `[1, 2]` in the class order
`[1, 2, 3]`, an in-slice class 2 and an out-of-slice identifier 5. -/
theorem remap_task_positions_witness :
    label_trsf [1, 2] [1, 2, 3] true true 2 = List.indexOf 2 [1, 2, 3] ∧
      ((2 : ℕ) ≠ 0 → (2 : ℕ) ≠ 255 →
        label_trsf [1, 2] [1, 2, 3] false true 2 = List.indexOf 2 [1, 2, 3]) ∧
      label_trsf [1, 2] [1, 2, 3] true true 5 = 0 :=
  remap_task_positions [1, 2] [1, 2, 3] true 2 5 (by decide) (by decide)

/-- C10 witness: a two-task scenario accessed at the invalid index 5: the
task-index array is overwritten to 5 and the access errors. -/
theorem out_of_range_access_mutates_witness :
    (getitem (⟨[10], [5], [9], [[1], [2]], [0], 2⟩ : TransformationIncremental ℕ ℕ) 5).1.ts
        = List.replicate ([5] : List ℕ).length (5 : Int) ∧
      (getitem (⟨[10], [5], [9], [[1], [2]], [0], 2⟩ : TransformationIncremental ℕ ℕ) 5).2
        = Except.error "IndexError: list index out of range" :=
  out_of_range_access_mutates
    (⟨[10], [5], [9], [[1], [2]], [0], 2⟩ : TransformationIncremental ℕ ℕ) 5
    (by decide) (by decide)
